import Mathlib

/-!
Shallow embedding of the feature-extraction and classification core of the
AI-voice-detection repository (src/app/audio_processor.py and
src/app/classifier.py).

Modelling conventions:
* Python/numpy floating point numbers are idealized as rationals (ℚ).
* librosa primitives whose algorithm the code depends on observably
  (rms framing, the relative-dB silence detector behind trim and split,
  peak normalization, get_duration) are embedded from their documented
  algorithm; the purely numeric DSP primitives (mfcc, chroma, piptrack,
  spectral descriptors, hpss, onset strength) are abstract function
  parameters, since only the shapes of their results matter to the claims.
* Fallible Python code (exceptions) is embedded in the Except monad.
* `np.std l < c` is embedded as the equivalent `npVarQ l < c^2`
  (both sides of the comparison are nonnegative, so squaring is faithful),
  because square roots do not exist in ℚ.
* The heuristic classifier calls random.uniform(-0.1, 0.1); the drawn value
  is made an explicit argument `r` of the embedded predict.
-/

/-- Python round(x, 3) rounds half to even (banker's rounding). -/
def bankersRound (x : ℚ) : ℤ :=
  if x - (⌊x⌋ : ℚ) < 1/2 then ⌊x⌋
  else if 1/2 < x - (⌊x⌋ : ℚ) then ⌊x⌋ + 1
  else if ⌊x⌋ % 2 = 0 then ⌊x⌋ else ⌊x⌋ + 1

/-- Python round(x, 3). -/
def round3 (x : ℚ) : ℚ := (bankersRound (1000 * x) : ℚ) / 1000

/-- Python max(lo, min(hi, x)). -/
def clampQ (lo hi x : ℚ) : ℚ := max lo (min hi x)

/-- np.mean of a 1-d array. -/
def npMean (l : List ℚ) : ℚ := l.sum / (l.length : ℚ)

/-- np.std squared, i.e. the population variance np.var. -/
def npVarQ (l : List ℚ) : ℚ := npMean (l.map (fun x => (x - npMean l) * (x - npMean l)))

/-- np.max over a list of nonnegative values (0 for the empty list). -/
def listMaxQ (l : List ℚ) : ℚ := l.foldr max 0

/-!  librosa silence machinery (frame_length 2048, hop_length 512), shared by
librosa.effects.trim and librosa.effects.split as called by the repository
with top_db = 30. -/

/-- Per-frame mean square power: librosa.feature.rms squared, with centered
zero padding of frame_length/2 = 1024 on each side.  Frame t covers padded
samples [512·t, 512·t + 2048); there are ⌊n/512⌋ + 1 frames. -/
def framePowers (y : List ℚ) : List ℚ :=
  let padded := List.replicate 1024 (0:ℚ) ++ y ++ List.replicate 1024 (0:ℚ)
  (List.range (y.length / 512 + 1)).map (fun t =>
    (((padded.drop (512 * t)).take 2048).map (fun x => x * x)).sum / 2048)

/-- librosa's amin = 1e-10 (the square of amplitude_to_db's amin = 1e-5). -/
def aminP : ℚ := 1 / 10 ^ 10

/-- librosa _signal_to_frame_nonsilent with ref = np.max and top_db = 30:
frame t is non-silent iff
  10·log10(max(amin, p t)) − 10·log10(max(amin, max p)) > −30,
equivalently  max(amin, max p) / 1000 < max(amin, p t). -/
def nonSilent (y : List ℚ) : List Bool :=
  let ps := framePowers y
  let pmax := listMaxQ ps
  ps.map (fun p => decide (max aminP pmax / 1000 < max aminP p))

/-- Maximal runs of `true` as half-open index intervals (auxiliary). -/
def trueRunsAux : List Bool → ℕ → Option ℕ → List (ℕ × ℕ)
  | [], _, none => []
  | [], i, some s => [(s, i)]
  | b :: rest, i, none =>
      if b then trueRunsAux rest (i+1) (some i) else trueRunsAux rest (i+1) none
  | b :: rest, i, some s =>
      if b then trueRunsAux rest (i+1) (some s)
      else (s, i) :: trueRunsAux rest (i+1) none

/-- Maximal runs of `true` in a boolean list, as half-open index intervals. -/
def trueRuns (bs : List Bool) : List (ℕ × ℕ) := trueRunsAux bs 0 none

/-- librosa.effects.trim(y, top_db=30): keep samples from the first non-silent
frame to one past the last non-silent frame (frame index times hop 512, end
clipped to the signal length); empty when no frame is non-silent. -/
def libTrim (y : List ℚ) : List ℚ :=
  let runs := trueRuns (nonSilent y)
  match runs.head?, runs.getLast? with
  | some r0, some r1 =>
    let start := 512 * r0.1
    let stop := min y.length (512 * r1.2)
    (y.drop start).take (stop - start)
  | _, _ => []

/-- librosa.effects.split(y, top_db=30): the non-silent runs as sample
intervals, edges clipped to the signal length. -/
def libSplit (y : List ℚ) : List (ℕ × ℕ) :=
  (trueRuns (nonSilent y)).map (fun r => (min y.length (512 * r.1), min y.length (512 * r.2)))

/-- librosa.util.normalize: divide by the peak absolute amplitude (identity
when the peak is zero, mirroring the tiny-threshold guard). -/
def normalizeAmp (y : List ℚ) : List ℚ :=
  let peak := listMaxQ (y.map (fun x => |x|))
  if peak = 0 then y else y.map (fun x => x / peak)

/-! ### AudioProcessor (src/app/audio_processor.py) -/

/-- Error taxonomy of the preprocessing stage.  The repository raises
ValueError with a duration message; the spec names these DurationError.
invalidAudio corresponds to a failed decode inside librosa.load, which
happens before the embedded code runs and is never produced by it. -/
inductive PreprocessError where
  | invalidAudio : PreprocessError
  | durationTooShort : ℚ → ℚ → PreprocessError
  | durationTooLong : ℚ → ℚ → PreprocessError
deriving DecidableEq

structure AudioProcessor where
  target_sr : ℕ := 22050
  min_duration : ℚ := 1
  max_duration : ℚ := 60

/-- AudioProcessor.preprocess: consumes the decoded mono signal (librosa.load
resamples to target_sr, so sr = target_sr); computes the duration
len(y)/sr on the full decoded signal, validates the bounds, then
peak-normalizes and trims.  Returns (audio, sr, duration). -/
def AudioProcessor.preprocess (ap : AudioProcessor) (y : List ℚ) :
    Except PreprocessError (List ℚ × ℕ × ℚ) :=
  let duration : ℚ := (y.length : ℚ) / (ap.target_sr : ℚ)
  if duration < ap.min_duration then
    Except.error (PreprocessError.durationTooShort duration ap.min_duration)
  else if ap.max_duration < duration then
    Except.error (PreprocessError.durationTooLong duration ap.max_duration)
  else
    let y1 := normalizeAmp y
    let y2 := libTrim y1
    Except.ok (y2, ap.target_sr, duration)

/-- The module-level singleton `audio_processor = AudioProcessor()`. -/
def audio_processor : AudioProcessor := {}

/-- AudioProcessor._extract_temporal_features, first two entries:
(silence ratio, average pause duration). -/
def temporalSilencePause (y : List ℚ) (sr : ℕ) : ℚ × ℚ :=
  let intervals := libSplit y
  if 0 < intervals.length then
    let speech : ℚ := (intervals.map (fun r => ((r.2 : ℚ) - (r.1 : ℚ)))).sum
    let silenceR : ℚ := 1 - speech / (y.length : ℚ)
    let pauses : List ℚ :=
      (List.range (intervals.length - 1)).map (fun i =>
        ((intervals.getD (i+1) (0,0)).1 : ℚ) - ((intervals.getD i (0,0)).2 : ℚ))
    let avgPause : ℚ :=
      if 1 < intervals.length then (if pauses = [] then 0 else npMean pauses / (sr : ℚ))
      else 0
    (silenceR, avgPause)
  else (1, 0)

/-! ### Classifiers (src/app/classifier.py) -/

/-- Python exceptions that the classifier code can raise. -/
inductive PyErr where
  | indexError : PyErr
  | runtimeError : PyErr
deriving DecidableEq

/-- Python `l[i]` on a nonnegative index: IndexError when out of range. -/
def pyGet (l : List ℚ) (i : ℕ) : Except PyErr ℚ :=
  match l.get? i with
  | some x => Except.ok x
  | none => Except.error PyErr.indexError

/-- MockVoiceClassifier.predict, embedded faithfully: each feature access is
guarded by a length check exactly as in the source
(`features[i] if len(features) > i else 0`); index accesses go through the
fallible pyGet so that totality is a theorem, not an assumption.
The random.uniform(-0.1, 0.1) draw is the explicit argument r.
Comparisons `np.std(features[40:80]) < 2` are embedded as variance < 4. -/
def MockVoiceClassifier.predict (features : List ℚ) (r : ℚ) :
    Except PyErr (String × ℚ) :=
  (if 91 < features.length then pyGet features 91 else pure 0).bind (fun pitch_std =>
  (if 96 < features.length then pyGet features 96 else pure 0).bind (fun jitter =>
  (if 97 < features.length then pyGet features 97 else pure 0).bind (fun shimmer =>
  (if 98 < features.length then pyGet features 98 else pure 0).bind (fun hnr =>
  (if 101 < features.length then pyGet features 101 else pure 0).bind (fun onset_std =>
  let ai_score : ℚ :=
    (if pitch_std < 30 then 1/4 else if 100 < pitch_std then -(1/10) else 0) +
    (if 80 ≤ features.length then
      (if npVarQ ((features.drop 40).take 40) < 4 then 1/5 else 0) else 0) +
    (if jitter < 1/50 then 3/20 else if 1/20 < jitter then -(1/10) else 0) +
    (if shimmer < 3/100 then 3/20 else 0) +
    (if 15 < hnr then 3/20 else 0) +
    (if onset_std < 1/2 then 1/10 else 0)
  let s1 := clampQ 0 1 (1/2 + ai_score)
  let s2 := clampQ (1/20) (19/20) (s1 + r)
  pure ((if 1/2 < s2 then "AI_GENERATED" else "HUMAN"),
        round3 (if 1/2 < s2 then s2 else 1 - s2)))))))

/-- The accumulated heuristic adjustment, written with total (default-0)
indexing; equal to the monadic computation by mock_predict_ok below. -/
def mockScoreBase (f : List ℚ) : ℚ :=
  (if f.getD 91 0 < 30 then 1/4 else if 100 < f.getD 91 0 then -(1/10) else 0) +
  (if 80 ≤ f.length then
    (if npVarQ ((f.drop 40).take 40) < 4 then 1/5 else 0) else 0) +
  (if f.getD 96 0 < 1/50 then 3/20 else if 1/20 < f.getD 96 0 then -(1/10) else 0) +
  (if f.getD 97 0 < 3/100 then 3/20 else 0) +
  (if 15 < f.getD 98 0 then 3/20 else 0) +
  (if f.getD 101 0 < 1/2 then 1/10 else 0)

/-- The score the heuristic classifier actually thresholds: the clamped base
score, plus the random draw r, clamped to [0.05, 0.95]. -/
def mockFinalScore (f : List ℚ) (r : ℚ) : ℚ :=
  clampQ (1/20) (19/20) (clampQ 0 1 (1/2 + mockScoreBase f) + r)

/-- The (label, confidence) pair the heuristic classifier returns. -/
def MockVoiceClassifier.predictTotal (f : List ℚ) (r : ℚ) : String × ℚ :=
  ((if 1/2 < mockFinalScore f r then "AI_GENERATED" else "HUMAN"),
   round3 (if 1/2 < mockFinalScore f r then mockFinalScore f r else 1 - mockFinalScore f r))

/-- A sub-model: predict_proba on the (scaled) feature row, returning the
positive-class probability, or none when the underlying model raises. -/
def SubModel : Type := List ℚ → Option ℚ

/-- EnsembleVoiceClassifier state after _load_models: the loaded sub-models
(in insertion order), the optional scaler, and the weight mapping. -/
structure EnsembleVoiceClassifier where
  models : List (String × SubModel)
  scaler : Option (List ℚ → List ℚ)
  weights : List (String × ℚ)

/-- Python dict .get(name, 0) on the weight mapping. -/
def lookupD (W : List (String × ℚ)) (n : String) : ℚ :=
  match W with
  | [] => 0
  | e :: rest => if n = e.1 then e.2 else lookupD rest n

/-- The scaled feature row (`self.scaler.transform` when a scaler is loaded). -/
def EnsembleVoiceClassifier.scaled (c : EnsembleVoiceClassifier) (features : List ℚ) : List ℚ :=
  match c.scaler with
  | some s => s features
  | none => features

/-- The per-model predictions dict: sub-models whose predict_proba succeeded,
with their probabilities, in model order. -/
def EnsembleVoiceClassifier.survivors (c : EnsembleVoiceClassifier) (features : List ℚ) :
    List (String × ℚ) :=
  c.models.filterMap (fun nm => (nm.2 (c.scaled features)).map (fun p => (nm.1, p)))

/-- The fused ensemble score: sum of self.weights.get(name, 0) * proba over
the surviving predictions (no renormalization in the source). -/
def EnsembleVoiceClassifier.rawScore (c : EnsembleVoiceClassifier) (features : List ℚ) : ℚ :=
  ((c.survivors features).map (fun np => lookupD c.weights np.1 * np.2)).sum

/-- Label and rounded confidence from a raw score (shared by the tail of both
predict methods). -/
def resultOfScore (s : ℚ) : String × ℚ :=
  ((if 1/2 < s then "AI_GENERATED" else "HUMAN"),
   round3 (if 1/2 < s then s else 1 - s))

/-- EnsembleVoiceClassifier.predict: RuntimeError when every sub-model failed,
otherwise the weighted fusion of the surviving predictions. -/
def EnsembleVoiceClassifier.predict (c : EnsembleVoiceClassifier) (features : List ℚ) :
    Except PyErr (String × ℚ) :=
  if c.survivors features = [] then Except.error PyErr.runtimeError
  else Except.ok (resultOfScore (c.rawScore features))

/-! ### Model loading and the factory (src/app/classifier.py lines 115-148 and 190-206) -/

/-- State of one artifact file in the model directory: absent, present but
failing to deserialize (joblib.load / json.load raises), or present and good. -/
inductive FileState (α : Type) where
  | absent : FileState α
  | corrupt : FileState α
  | good : α → FileState α

/-- Path.exists() for an artifact. -/
def FileState.onDisk {α : Type} : FileState α → Bool
  | FileState.absent => false
  | FileState.corrupt => true
  | FileState.good _ => true

/-- The model directory's five artifacts. -/
structure ModelDir where
  random_forest : FileState SubModel
  gradient_boosting : FileState SubModel
  svm : FileState SubModel
  scaler : FileState (List ℚ → List ℚ)
  weightsFile : FileState (List (String × ℚ))

/-- Load one optional artifact: skipped when absent, raising when corrupt. -/
def loadOpt {α : Type} : FileState α → Except PyErr (Option α)
  | FileState.absent => Except.ok none
  | FileState.corrupt => Except.error PyErr.runtimeError
  | FileState.good a => Except.ok (some a)

/-- EnsembleVoiceClassifier._load_models: load each of random_forest,
gradient_boosting, svm that exists on disk (in that order), then the scaler,
then weights.json (equal weights 1/len(models) when that file is absent);
finally raise FileNotFoundError when no model was loaded.  Any load error
propagates out of the constructor. -/
def loadModels (d : ModelDir) : Except PyErr EnsembleVoiceClassifier := do
  let rf ← loadOpt d.random_forest
  let gb ← loadOpt d.gradient_boosting
  let sv ← loadOpt d.svm
  let models : List (String × SubModel) :=
    ([("random_forest", rf), ("gradient_boosting", gb), ("svm", sv)]).filterMap
      (fun nm => nm.2.map (fun m => (nm.1, m)))
  let scaler ← loadOpt d.scaler
  let weights ← (match d.weightsFile with
    | FileState.absent =>
        Except.ok (models.map (fun nm => (nm.1, (1 : ℚ) / (models.length : ℚ))))
    | FileState.corrupt => Except.error PyErr.runtimeError
    | FileState.good w => Except.ok w)
  if models.isEmpty then Except.error PyErr.runtimeError
  else Except.ok { models := models, scaler := scaler, weights := weights }

/-- The classifier the factory hands out, with the observable is_mock flag
(`MockVoiceClassifier.is_mock = True`, `EnsembleVoiceClassifier.is_mock = False`). -/
inductive Classifier where
  | mock : Classifier
  | ensemble : EnsembleVoiceClassifier → Classifier

def Classifier.is_mock : Classifier → Bool
  | Classifier.mock => true
  | Classifier.ensemble _ => false

/-- get_classifier: requires only random_forest.pkl and scaler.pkl to exist on
disk; tries the ensemble constructor and falls back to the mock classifier on
any load error. -/
def get_classifier (model_dir : Option ModelDir) : Classifier :=
  match model_dir with
  | none => Classifier.mock
  | some d =>
    if d.random_forest.onDisk && d.scaler.onDisk then
      match loadModels d with
      | Except.ok e => Classifier.ensemble e
      | Except.error _ => Classifier.mock
    else Classifier.mock

/-! ### Feature Extraction Engine (src/app/audio_processor.py, extract_all_features) -/

/-- np.argmax: first index of the maximum (0 on the empty list). -/
def argmaxIdx (l : List ℚ) : ℕ :=
  match l with
  | [] => 0
  | x :: rest =>
    (rest.foldl (fun (acc : ℕ × ℕ × ℚ) v =>
      let cur := acc.2.1 + 1
      if acc.2.2 < v then (cur, cur, v) else (acc.1, cur, acc.2.2)) (0, 0, x)).1

/-- The voiced-pitch series of audio_processor.py lines 147-152 (and again
181-186): per frame, the pitch at the magnitude argmax, kept when positive.
piptrack matrices are modelled as their lists of per-frame columns. -/
def dominantPitches (pitchCols magCols : List (List ℚ)) : List ℚ :=
  (pitchCols.zip magCols).filterMap (fun pm =>
    let p := pm.1.getD (argmaxIdx pm.2) 0
    if 0 < p then some p else none)

/-- np.ptp: max − min (0 on the empty list). -/
def npPtp (l : List ℚ) : ℚ :=
  match l with
  | [] => 0
  | x :: rest => rest.foldl max x - rest.foldl min x

/-- np.mean(np.abs(np.diff v) / (v[:-1] + 1e-10)): the jitter/shimmer shape. -/
def relMeanAbsDiff (v : List ℚ) : ℚ :=
  npMean ((v.zip v.tail).map (fun ab => |ab.2 - ab.1| / (ab.1 + aminP)))

def sumSq (l : List ℚ) : ℚ := (l.map (fun x => x * x)).sum

/-- The librosa/numpy primitives the extractors call, as abstract parameters.
Matrices are lists of rows except the piptrack pair, which is modelled as
per-frame columns (the code only reads per-frame argmax columns).
npStd is np.std (an irrational square root in general, hence abstract);
toF32 is the np.float32 conversion applied by np.array(..., dtype=float32). -/
structure LibrosaPrims where
  mfccMat : List ℚ → ℕ → ℕ → List (List ℚ)
  centroid : List ℚ → ℕ → List ℚ
  rolloff : List ℚ → ℕ → List ℚ
  bandwidth : List ℚ → ℕ → List ℚ
  contrast : List ℚ → ℕ → List (List ℚ)
  flatness : List ℚ → List ℚ
  piptrackP : List ℚ → ℕ → List (List ℚ)
  piptrackM : List ℚ → ℕ → List (List ℚ)
  rmsSeries : List ℚ → List ℚ
  zcrSeries : List ℚ → List ℚ
  hpssH : List ℚ → List ℚ
  hpssP : List ℚ → List ℚ
  onsetEnv : List ℚ → ℕ → List ℚ
  chromaMat : List ℚ → ℕ → List (List ℚ)
  npStd : List ℚ → ℚ
  log10 : ℚ → ℚ
  toF32 : ℚ → ℚ

/-- _extract_mfcc_features: 40 per-coefficient means then 40 per-coefficient
standard deviations (n_mfcc = 40). -/
def extract_mfcc_features (L : LibrosaPrims) (y : List ℚ) (sr : ℕ) : List ℚ :=
  let m := L.mfccMat y sr 40
  m.map npMean ++ m.map L.npStd

/-- _extract_spectral_features: mean/std of centroid, rolloff, bandwidth,
contrast (whole matrix), flatness. -/
def extract_spectral_features (L : LibrosaPrims) (y : List ℚ) (sr : ℕ) : List ℚ :=
  let cent := L.centroid y sr
  let roll := L.rolloff y sr
  let bw := L.bandwidth y sr
  let con := (L.contrast y sr).flatten
  let fl := L.flatness y
  [npMean cent, L.npStd cent, npMean roll, L.npStd roll, npMean bw, L.npStd bw,
   npMean con, L.npStd con, npMean fl, L.npStd fl]

/-- _extract_prosodic_features: pitch mean/std/range (0 when no voiced frame),
energy mean/std, zero-crossing-rate mean. -/
def extract_prosodic_features (L : LibrosaPrims) (y : List ℚ) (sr : ℕ) : List ℚ :=
  let pv := dominantPitches (L.piptrackP y sr) (L.piptrackM y sr)
  let pitch_mean := if pv = [] then 0 else npMean pv
  let pitch_std := if pv = [] then 0 else L.npStd pv
  let pitch_range := if pv = [] then 0 else npPtp pv
  let rms := L.rmsSeries y
  let zcr := L.zcrSeries y
  [pitch_mean, pitch_std, pitch_range, npMean rms, L.npStd rms, npMean zcr]

/-- _extract_voice_quality_features: jitter, shimmer (0 with fewer than 2
frames), harmonic-to-noise ratio 10·log10((Σh²+ε)/(Σp²+ε)). -/
def extract_voice_quality_features (L : LibrosaPrims) (y : List ℚ) (sr : ℕ) : List ℚ :=
  let pv := dominantPitches (L.piptrackP y sr) (L.piptrackM y sr)
  let jitter := if 1 < pv.length then relMeanAbsDiff pv else 0
  let rms := L.rmsSeries y
  let shimmer := if 1 < rms.length then relMeanAbsDiff rms else 0
  let hnr := 10 * L.log10 ((sumSq (L.hpssH y) + aminP) / (sumSq (L.hpssP y) + aminP))
  [jitter, shimmer, hnr]

/-- _extract_temporal_features: silence ratio, average pause duration, onset
strength mean/std. -/
def extract_temporal_features (L : LibrosaPrims) (y : List ℚ) (sr : ℕ) : List ℚ :=
  let sp := temporalSilencePause y sr
  let env := L.onsetEnv y sr
  [sp.1, sp.2, npMean env, L.npStd env]

/-- _extract_chroma_features: 12 chroma-bin means then 12 chroma-bin stds. -/
def extract_chroma_features (L : LibrosaPrims) (y : List ℚ) (sr : ℕ) : List ℚ :=
  let ch := L.chromaMat y sr
  ch.map npMean ++ ch.map L.npStd

/-- extract_all_features: the six blocks concatenated in fixed order, then
converted elementwise by np.array(..., dtype=np.float32). -/
def extract_all_features (L : LibrosaPrims) (y : List ℚ) (sr : ℕ) : List ℚ :=
  (extract_mfcc_features L y sr ++ extract_spectral_features L y sr ++
   extract_prosodic_features L y sr ++ extract_voice_quality_features L y sr ++
   extract_temporal_features L y sr ++ extract_chroma_features L y sr).map L.toF32

/-! ### Spec-side definitions for refinement comparisons -/

/-- Modelled from the spec (claim C1 wording): the fused score with the
weights renormalized to sum to 1 over the surviving sub-models. -/
def c1SpecRenormScore (W : List (String × ℚ)) (preds : List (String × ℚ)) : ℚ :=
  ((preds.map (fun np => lookupD W np.1 * np.2)).sum) /
  ((preds.map (fun np => lookupD W np.1)).sum)

/-- Claim C2's adjustment table as written (independent signed adjustments;
std(f[40:80]) < 2 encoded as variance < 4). -/
def c2ClaimAdjust (f : List ℚ) : ℚ :=
  (if f.getD 91 0 < 30 then 1/4 else 0) +
  (if 100 < f.getD 91 0 then -(1/10) else 0) +
  (if npVarQ ((f.drop 40).take 40) < 4 then 1/5 else 0) +
  (if f.getD 96 0 < 1/50 then 3/20 else 0) +
  (if 1/20 < f.getD 96 0 then -(1/10) else 0) +
  (if f.getD 97 0 < 3/100 then 3/20 else 0) +
  (if 15 < f.getD 98 0 then 3/20 else 0) +
  (if f.getD 101 0 < 1/2 then 1/10 else 0)

/-- Modelled from the spec (claim C2 as written): score = 0.5 + adjustments,
clamped to [0,1]; label AI iff score > 0.5; confidence = score or 1−score,
with no noise term and no further clamping or rounding. -/
def c2ClaimResult (f : List ℚ) : String × ℚ :=
  let s := clampQ 0 1 (1/2 + c2ClaimAdjust f)
  ((if 1/2 < s then "AI_GENERATED" else "HUMAN"), (if 1/2 < s then s else 1 - s))

/-- Claim C2 amended: after the clamped deterministic score, the code adds the
random draw r, clamps to [0.05, 0.95], and rounds the confidence to 3
decimals. -/
def c2AmendedResult (f : List ℚ) (r : ℚ) : String × ℚ :=
  let s := clampQ (1/20) (19/20) (clampQ 0 1 (1/2 + c2ClaimAdjust f) + r)
  ((if 1/2 < s then "AI_GENERATED" else "HUMAN"), round3 (if 1/2 < s then s else 1 - s))

/-- Modelled from the spec (claim C4 wording): the ensemble should be selected
exactly when every sub-model artifact and the scaler are present and load. -/
def c4ClaimCondition (d : ModelDir) : Prop :=
  (∃ m, d.random_forest = FileState.good m) ∧
  (∃ m, d.gradient_boosting = FileState.good m) ∧
  (∃ m, d.svm = FileState.good m) ∧
  (∃ s, d.scaler = FileState.good s)

/-! ### Concrete instances used by counterexamples and witnesses -/

/-- A sub-model that always succeeds with probability q. -/
def subOk (q : ℚ) : SubModel := fun _ => some q

/-- A sub-model whose predict_proba raises. -/
def subFail : SubModel := fun _ => none

/-- Ensemble with weights {0.5, 0.3, 0.2} (summing to 1) whose middle
sub-model fails at inference time, as in the spec's worked example. -/
def c1Ensemble : EnsembleVoiceClassifier :=
  { models := [("random_forest", subOk 1), ("gradient_boosting", subFail), ("svm", subOk 1)],
    scaler := none,
    weights := [("random_forest", 1/2), ("gradient_boosting", 3/10), ("svm", 1/5)] }

/-- Single-model ensemble with weight 1 and probability 0.6002. -/
def c7Ensemble : EnsembleVoiceClassifier :=
  { models := [("random_forest", subOk (3001/5000))], scaler := none,
    weights := [("random_forest", 1)] }

/-- A model directory holding only random_forest.pkl and scaler.pkl. -/
def c4Dir : ModelDir :=
  { random_forest := FileState.good (subOk 1), gradient_boosting := FileState.absent,
    svm := FileState.absent, scaler := FileState.good (fun l => l),
    weightsFile := FileState.absent }

/-- A model directory with all three sub-models but no scaler. -/
def c4DirNoScaler : ModelDir :=
  { random_forest := FileState.good (subOk 1), gradient_boosting := FileState.good (subOk 1),
    svm := FileState.good (subOk 1), scaler := FileState.absent,
    weightsFile := FileState.absent }

/-- Processor at the constructor-selectable sample rate 1024 Hz. -/
def apEx : AudioProcessor := { target_sr := 1024 }

/-- One second of leading silence followed by one second of full-scale
amplitude, at 1024 Hz: duration 2 s, within bounds. -/
def yEx : List ℚ := List.replicate 1024 0 ++ List.replicate 1024 1

/-- What librosa's trim keeps of yEx: frame 0 (samples [0, 1024) of context)
is silent, so trimming starts at sample 512. -/
def yExTrimmed : List ℚ := List.replicate 512 0 ++ List.replicate 1024 1

/-- Degenerate but shape-correct librosa primitives, for witnesses. -/
def L0 : LibrosaPrims :=
  { mfccMat := fun _ _ n => List.replicate n [], centroid := fun _ _ => [],
    rolloff := fun _ _ => [], bandwidth := fun _ _ => [], contrast := fun _ _ => [],
    flatness := fun _ => [], piptrackP := fun _ _ => [], piptrackM := fun _ _ => [],
    rmsSeries := fun _ => [], zcrSeries := fun _ => [], hpssH := fun y => y,
    hpssP := fun y => y, onsetEnv := fun _ _ => [], chromaMat := fun _ _ => List.replicate 12 [],
    npStd := fun _ => 0, log10 := fun _ => 0, toF32 := fun x => x }

/-- Ensemble containing a surviving sub-model ("extra") that has no entry in
the weight mapping. -/
def c10Ensemble : EnsembleVoiceClassifier :=
  { models := [("random_forest", subOk (1/2)), ("extra", subOk 1)], scaler := none,
    weights := [("random_forest", 1)] }

/-- Whether an Except value is a success. -/
def exceptIsOk {ε α : Type} : Except ε α → Bool
  | Except.ok _ => true
  | Except.error _ => false

instance {ε α : Type} [DecidableEq ε] [DecidableEq α] : DecidableEq (Except ε α) := fun a b =>
  match a, b with
  | Except.ok x, Except.ok y =>
    if h : x = y then Decidable.isTrue (by rw [h])
    else Decidable.isFalse (by intro hc; cases hc; exact h rfl)
  | Except.error x, Except.error y =>
    if h : x = y then Decidable.isTrue (by rw [h])
    else Decidable.isFalse (by intro hc; cases hc; exact h rfl)
  | Except.ok _, Except.error _ => Decidable.isFalse (by intro hc; cases hc)
  | Except.error _, Except.ok _ => Decidable.isFalse (by intro hc; cases hc)

/-! ### Theorems -/

set_option maxRecDepth 40000

theorem guarded_get_eq (l : List ℚ) (i : ℕ) :
    (if i < l.length then pyGet l i else pure 0) = pure (l.getD i 0) := by
  by_cases h : i < l.length
  · rw [if_pos h]
    unfold pyGet
    rcases hg : l.get? i with _ | x
    · exact absurd (List.get?_eq_none.mp hg) (not_le.mpr h)
    · have hx : l.getD i 0 = x := by
        rw [List.getD_eq_getElem?_getD, ← List.get?_eq_getElem?, hg]; rfl
      rw [hx]; rfl
  · rw [if_neg h]
    have hx : l.getD i 0 = 0 := by
      rw [List.getD_eq_getElem?_getD, ← List.get?_eq_getElem?,
        List.get?_eq_none.mpr (not_lt.mp h)]
      rfl
    rw [hx]

/-- The heuristic classifier never raises: every guarded access succeeds, and
the result is the total (default-0 indexing) computation. -/
theorem mock_predict_ok (f : List ℚ) (r : ℚ) :
    MockVoiceClassifier.predict f r = Except.ok (MockVoiceClassifier.predictTotal f r) := by
  unfold MockVoiceClassifier.predict
  simp only [guarded_get_eq, pure_bind]
  rfl

/-- C9: for every one-dimensional numeric feature vector of any length —
including vectors shorter than 127 and the empty vector — the heuristic
classifier's predict returns a (label, confidence) pair and never raises;
every index access beyond the vector's length contributes 0 to the score
(the result equals the total default-0-indexing computation predictTotal). -/
theorem c9_mock_predict_never_fails (f : List ℚ) (r : ℚ) :
    MockVoiceClassifier.predict f r = Except.ok (MockVoiceClassifier.predictTotal f r) :=
  mock_predict_ok f r

theorem elif_split (x t₁ t₂ u v : ℚ) (h : t₁ ≤ t₂) :
    (if x < t₁ then u else if t₂ < x then v else 0) =
    (if x < t₁ then u else 0) + (if t₂ < x then v else 0) := by
  by_cases h1 : x < t₁
  · rw [if_pos h1, if_pos h1, if_neg (by linarith), add_zero]
  · rw [if_neg h1, if_neg h1, zero_add]

theorem mockScoreBase_eq_claim (f : List ℚ) (h : 80 ≤ f.length) :
    mockScoreBase f = c2ClaimAdjust f := by
  unfold mockScoreBase c2ClaimAdjust
  rw [if_pos h,
    elif_split _ _ _ _ _ (by norm_num : (30:ℚ) ≤ 100),
    elif_split _ _ _ _ _ (by norm_num : (1:ℚ)/50 ≤ 1/20)]
  ring

unseal Rat.add Rat.mul Rat.inv Rat.sub in
/-- C2 counterexample: on the all-zero length-127 vector the claim's formula
yields score 1.0, label AI_GENERATED, confidence 1.0; the code (even at noise
draw r = 0) returns confidence 0.95 because of the extra clamp to
[0.05, 0.95] applied after the noise. -/
theorem c2_counterexample :
    MockVoiceClassifier.predict (List.replicate 127 0) 0 =
      Except.ok ("AI_GENERATED", 19/20)
    ∧ c2ClaimResult (List.replicate 127 0) = ("AI_GENERATED", 1)
    ∧ ((19:ℚ)/20) ≠ 1 :=
  ⟨by decide, by decide, by norm_num⟩

/-- C2 amended: for every feature vector of the expected length 127 the
heuristic score is 0.5 plus exactly the claimed adjustments clamped to [0,1],
but then the random draw r is added and the result clamped to [0.05, 0.95];
the label is AI_GENERATED iff that final score exceeds 0.5 and the returned
confidence is the final score (resp. 1 − it) rounded to 3 decimals. -/
theorem c2_heuristic_score_amended (f : List ℚ) (r : ℚ) (h : f.length = 127) :
    MockVoiceClassifier.predict f r = Except.ok (c2AmendedResult f r) := by
  rw [mock_predict_ok]
  unfold MockVoiceClassifier.predictTotal c2AmendedResult mockFinalScore
  rw [mockScoreBase_eq_claim f (by rw [h]; norm_num)]

unseal Rat.add Rat.mul Rat.inv Rat.sub in
theorem c2_heuristic_score_amended_witness :
    (List.replicate 127 (0:ℚ)).length = 127 ∧
    MockVoiceClassifier.predict (List.replicate 127 0) (-(1/10)) =
      Except.ok ("AI_GENERATED", 9/10) :=
  ⟨by simp,
   (c2_heuristic_score_amended (List.replicate 127 0) (-(1/10)) (by simp)).trans (by decide)⟩

theorem bankersRound_ge_floor (x : ℚ) : ⌊x⌋ ≤ bankersRound x := by
  unfold bankersRound
  split_ifs <;> omega

theorem bankersRound_le_ceil (x : ℚ) : bankersRound x ≤ ⌈x⌉ := by
  have hfc : ⌊x⌋ ≤ ⌈x⌉ := Int.floor_le_ceil x
  have hstep : (⌊x⌋ : ℚ) < x → ⌊x⌋ + 1 ≤ ⌈x⌉ := fun h =>
    Int.add_one_le_iff.mpr (Int.lt_ceil.mpr h)
  unfold bankersRound
  split_ifs with h1 h2 h3
  · exact hfc
  · exact hstep (by linarith)
  · exact hfc
  · exact hstep (by push_neg at h1; linarith)

theorem round3_le_one {x : ℚ} (h : x ≤ 1) : round3 x ≤ 1 := by
  unfold round3
  have hc : bankersRound (1000 * x) ≤ 1000 :=
    le_trans (bankersRound_le_ceil _) (Int.ceil_le.mpr (by push_cast; linarith))
  rw [div_le_one (by norm_num)]
  exact_mod_cast hc

theorem round3_ge_half {x : ℚ} (h : 1/2 ≤ x) : 1/2 ≤ round3 x := by
  unfold round3
  have hf : (500 : ℤ) ≤ bankersRound (1000 * x) :=
    le_trans (Int.le_floor.mpr (by push_cast; linarith)) (bankersRound_ge_floor _)
  rw [le_div_iff₀ (by norm_num)]
  calc (1:ℚ)/2 * 1000 = 500 := by norm_num
    _ ≤ (bankersRound (1000 * x) : ℚ) := by exact_mod_cast hf

theorem clampQ_le (lo hi x : ℚ) (h : lo ≤ hi) : clampQ lo hi x ≤ hi :=
  max_le h (min_le_left _ _)

theorem le_clampQ (lo hi x : ℚ) : lo ≤ clampQ lo hi x := le_max_left _ _

theorem mockFinalScore_mem (f : List ℚ) (r : ℚ) :
    1/20 ≤ mockFinalScore f r ∧ mockFinalScore f r ≤ 19/20 :=
  ⟨le_clampQ _ _ _, clampQ_le _ _ _ (by norm_num)⟩

/-- The label/confidence pair built from a raw score in [0,1] carries the
probability mass of the returned label, rounded to 3 decimals. -/
theorem resultOfScore_props (s : ℚ) (h0 : 0 ≤ s) (h1 : s ≤ 1) :
    0 ≤ (resultOfScore s).2 ∧ (resultOfScore s).2 ≤ 1 ∧ 1/2 ≤ (resultOfScore s).2 ∧
    ((resultOfScore s).1 = "AI_GENERATED" ↔ 1/2 < s) ∧
    (resultOfScore s).2 = round3 (if 1/2 < s then s else 1 - s) := by
  have hmass : (resultOfScore s).2 = round3 (if 1/2 < s then s else 1 - s) := rfl
  have hlbl : (resultOfScore s).1 = (if 1/2 < s then "AI_GENERATED" else "HUMAN") := rfl
  by_cases hs : 1/2 < s
  · refine ⟨?_, ?_, ?_, ?_, hmass⟩
    · rw [hmass, if_pos hs]
      have := round3_ge_half (le_of_lt hs); linarith
    · rw [hmass, if_pos hs]; exact round3_le_one h1
    · rw [hmass, if_pos hs]; exact round3_ge_half (le_of_lt hs)
    · rw [hlbl, if_pos hs]; exact ⟨fun _ => hs, fun _ => rfl⟩
  · push_neg at hs
    refine ⟨?_, ?_, ?_, ?_, hmass⟩
    · rw [hmass, if_neg (not_lt.mpr hs)]
      have := round3_ge_half (by linarith : 1/2 ≤ 1 - s); linarith
    · rw [hmass, if_neg (not_lt.mpr hs)]; exact round3_le_one (by linarith)
    · rw [hmass, if_neg (not_lt.mpr hs)]; exact round3_ge_half (by linarith)
    · rw [hlbl, if_neg (not_lt.mpr hs)]
      exact ⟨fun hcon => absurd hcon (by decide), fun hcon => absurd hcon (not_lt.mpr hs)⟩

theorem lookupD_nonneg (W : List (String × ℚ)) (hW : ∀ e ∈ W, 0 ≤ e.2) (n : String) :
    0 ≤ lookupD W n := by
  induction W with
  | nil => exact le_refl 0
  | cons e rest ih =>
    show 0 ≤ (if n = e.1 then e.2 else lookupD rest n)
    by_cases h : n = e.1
    · rw [if_pos h]; exact hW e (List.mem_cons_self e rest)
    · rw [if_neg h]; exact ih (fun x hx => hW x (List.mem_cons_of_mem _ hx))

/-- Summing looked-up weights over distinct names is bounded by the total mass
of the weight mapping. -/
theorem sum_lookupD_le (W : List (String × ℚ)) (hW : ∀ e ∈ W, 0 ≤ e.2)
    (L : List String) (hL : L.Nodup) :
    (L.map (fun n => lookupD W n)).sum ≤ (W.map Prod.snd).sum := by
  induction W generalizing L with
  | nil =>
    have hz : (L.map (fun n => lookupD [] n)).sum = 0 := by
      apply List.sum_eq_zero
      intro x hx
      rcases List.mem_map.mp hx with ⟨a, _, rfl⟩
      rfl
    simp [hz]
  | cons e rest ih =>
    have hW' : ∀ x ∈ rest, 0 ≤ x.2 := fun x hx => hW x (List.mem_cons_of_mem _ hx)
    have he2 : 0 ≤ e.2 := hW e (List.mem_cons_self e rest)
    simp only [List.map_cons, List.sum_cons]
    by_cases hk : e.1 ∈ L
    · have hperm : L.Perm (e.1 :: L.erase e.1) := List.perm_cons_erase hk
      rw [(hperm.map (fun n => lookupD (e :: rest) n)).sum_eq]
      simp only [List.map_cons, List.sum_cons]
      have hhd : lookupD (e :: rest) e.1 = e.2 := by
        show (if e.1 = e.1 then e.2 else lookupD rest e.1) = e.2
        rw [if_pos rfl]
      have htl : (L.erase e.1).map (fun n => lookupD (e :: rest) n)
               = (L.erase e.1).map (fun n => lookupD rest n) := by
        apply List.map_congr_left
        intro a ha
        have hne : a ≠ e.1 := (hL.mem_erase_iff.mp ha).1
        show (if a = e.1 then e.2 else lookupD rest a) = lookupD rest a
        rw [if_neg hne]
      rw [hhd, htl]
      have hrec := ih hW' (L.erase e.1) (hL.erase _)
      linarith
    · have htl : L.map (fun n => lookupD (e :: rest) n)
               = L.map (fun n => lookupD rest n) := by
        apply List.map_congr_left
        intro a ha
        have hne : a ≠ e.1 := fun hEq => hk (hEq ▸ ha)
        show (if a = e.1 then e.2 else lookupD rest a) = lookupD rest a
        rw [if_neg hne]
      rw [htl]
      have hrec := ih hW' L hL
      linarith

theorem filterMap_names_sublist (models : List (String × SubModel)) (fs : List ℚ) :
    ((models.filterMap (fun nm => (nm.2 fs).map (fun p => (nm.1, p)))).map Prod.fst).Sublist
      (models.map Prod.fst) := by
  induction models with
  | nil => simp
  | cons nm rest ih =>
    simp only [List.filterMap_cons, List.map_cons]
    cases h : (nm.2 fs) with
    | none => simp only [Option.map_none']; exact ih.cons _
    | some p => simp only [Option.map_some']; exact ih.cons₂ _

theorem survivors_mem (c : EnsembleVoiceClassifier) (f : List ℚ) {np : String × ℚ}
    (h : np ∈ c.survivors f) :
    ∃ nm ∈ c.models, nm.1 = np.1 ∧ nm.2 (c.scaled f) = some np.2 := by
  rcases List.mem_filterMap.mp h with ⟨nm, hmem, heq⟩
  rcases Option.map_eq_some'.mp heq with ⟨p, hp, hpe⟩
  cases hpe
  exact ⟨nm, hmem, rfl, hp⟩

theorem rawScore_nonneg (c : EnsembleVoiceClassifier) (f : List ℚ)
    (hW : ∀ e ∈ c.weights, 0 ≤ e.2)
    (hp : ∀ nm ∈ c.models, ∀ x p, nm.2 x = some p → 0 ≤ p ∧ p ≤ 1) :
    0 ≤ c.rawScore f := by
  apply List.sum_nonneg
  intro q hq
  rcases List.mem_map.mp hq with ⟨np, hnp, rfl⟩
  rcases survivors_mem c f hnp with ⟨nm, hm, _, hn2⟩
  exact mul_nonneg (lookupD_nonneg c.weights hW np.1) (hp nm hm _ _ hn2).1

theorem rawScore_le_one (c : EnsembleVoiceClassifier) (f : List ℚ)
    (hW : ∀ e ∈ c.weights, 0 ≤ e.2) (hWs : (c.weights.map Prod.snd).sum ≤ 1)
    (hnd : (c.models.map Prod.fst).Nodup)
    (hp : ∀ nm ∈ c.models, ∀ x p, nm.2 x = some p → 0 ≤ p ∧ p ≤ 1) :
    c.rawScore f ≤ 1 := by
  have h1 : c.rawScore f
          ≤ ((c.survivors f).map (fun np => lookupD c.weights np.1)).sum := by
    apply List.sum_le_sum
    intro np hnp
    rcases survivors_mem c f hnp with ⟨nm, hm, _, hn2⟩
    have hb := hp nm hm _ _ hn2
    have h0w := lookupD_nonneg c.weights hW np.1
    calc lookupD c.weights np.1 * np.2 ≤ lookupD c.weights np.1 * 1 :=
          mul_le_mul_of_nonneg_left hb.2 h0w
      _ = lookupD c.weights np.1 := mul_one _
  have h2 : ((c.survivors f).map (fun np => lookupD c.weights np.1)).sum
          = (((c.survivors f).map Prod.fst).map (fun n => lookupD c.weights n)).sum := by
    rw [List.map_map]; rfl
  have hnd' : ((c.survivors f).map Prod.fst).Nodup :=
    (filterMap_names_sublist c.models (c.scaled f)).nodup hnd
  have h3 := sum_lookupD_le c.weights hW ((c.survivors f).map Prod.fst) hnd'
  rw [h2] at h1
  linarith

unseal Rat.add Rat.mul Rat.inv Rat.sub in
/-- C7 counterexample: a single surviving sub-model with weight 1 and
probability 0.6002 yields raw score 0.6002 but returned confidence 0.6
(the code rounds to 3 decimals), so the confidence is not exactly the
probability mass of the returned label. -/
theorem c7_counterexample :
    c7Ensemble.predict [] = Except.ok ("AI_GENERATED", 3/5)
    ∧ c7Ensemble.rawScore [] = 3001/5000
    ∧ ((3:ℚ)/5) ≠ 3001/5000 :=
  ⟨by decide, by decide, by norm_num⟩

/-- C7 amended: for both classifiers the returned confidence is the 3-decimal
rounding of the probability mass of the returned label; confidence lies in
[0,1], confidence ≥ 0.5 always holds, and label = AI_GENERATED iff the raw
score exceeds 0.5 (for the ensemble under the loaded-weight invariants:
nonnegative weights with total mass ≤ 1, distinct model names, sub-model
probabilities in [0,1]). -/
theorem c7_confidence_amended :
    (∀ (f : List ℚ) (r : ℚ) (out : String × ℚ),
      MockVoiceClassifier.predict f r = Except.ok out →
      0 ≤ out.2 ∧ out.2 ≤ 1 ∧ 1/2 ≤ out.2 ∧
      (out.1 = "AI_GENERATED" ↔ 1/2 < mockFinalScore f r) ∧
      out.2 = round3 (if 1/2 < mockFinalScore f r then mockFinalScore f r
                      else 1 - mockFinalScore f r))
    ∧
    (∀ (c : EnsembleVoiceClassifier) (f : List ℚ) (out : String × ℚ),
      (∀ e ∈ c.weights, 0 ≤ e.2) →
      (c.weights.map Prod.snd).sum ≤ 1 →
      (c.models.map Prod.fst).Nodup →
      (∀ nm ∈ c.models, ∀ x p, nm.2 x = some p → 0 ≤ p ∧ p ≤ 1) →
      c.predict f = Except.ok out →
      0 ≤ out.2 ∧ out.2 ≤ 1 ∧ 1/2 ≤ out.2 ∧
      (out.1 = "AI_GENERATED" ↔ 1/2 < c.rawScore f) ∧
      out.2 = round3 (if 1/2 < c.rawScore f then c.rawScore f
                      else 1 - c.rawScore f)) := by
  constructor
  · intro f r out h
    rw [mock_predict_ok] at h
    injection h with h'
    subst h'
    obtain ⟨hlo, hhi⟩ := mockFinalScore_mem f r
    exact resultOfScore_props (mockFinalScore f r) (by linarith) (by linarith)
  · intro c f out hW hWs hnd hp h
    unfold EnsembleVoiceClassifier.predict at h
    by_cases hs : c.survivors f = []
    · rw [if_pos hs] at h; cases h
    · rw [if_neg hs] at h
      injection h with h'
      subst h'
      exact resultOfScore_props (c.rawScore f)
        (rawScore_nonneg c f hW hp) (rawScore_le_one c f hW hWs hnd hp)

unseal Rat.add Rat.mul Rat.inv Rat.sub in
theorem c7_confidence_amended_witness :
    ((1:ℚ)/2 ≤ 19/20 ∧ (("AI_GENERATED" : String) = "AI_GENERATED" ↔
        1/2 < mockFinalScore (List.replicate 127 0) 0))
    ∧ ((1:ℚ)/2 ≤ 3/5 ∧ (("AI_GENERATED" : String) = "AI_GENERATED" ↔
        1/2 < c7Ensemble.rawScore [])) := by
  constructor
  · have h := c7_confidence_amended.1 (List.replicate 127 0) 0
      ("AI_GENERATED", 19/20) (by decide)
    exact ⟨h.2.2.1, h.2.2.2.1⟩
  · have h := c7_confidence_amended.2 c7Ensemble [] ("AI_GENERATED", 3/5)
      (by decide) (by decide) (by decide) ?_ (by decide)
    · exact ⟨h.2.2.1, h.2.2.2.1⟩
    · intro nm hnm x p hxp
      rcases List.mem_singleton.mp hnm with rfl
      have hp' : p = 3001/5000 := by
        have : some ((3001:ℚ)/5000) = some p := hxp
        injection this with h''
        exact h''.symm
      rw [hp']
      norm_num

unseal Rat.add Rat.mul Rat.inv Rat.sub in
/-- C1 counterexample: with the spec's own weights {0.5, 0.3, 0.2} (summing
to 1), sub-model B failing and pA = pC = 1, the code returns confidence 0.7 —
the unnormalized sum 0.5·1 + 0.2·1 — while the claim's renormalized score is
(0.5·1 + 0.2·1)/0.7 = 1. -/
theorem c1_counterexample :
    (c1Ensemble.weights.map Prod.snd).sum = 1
    ∧ c1Ensemble.predict [] = Except.ok ("AI_GENERATED", 7/10)
    ∧ c1SpecRenormScore c1Ensemble.weights (c1Ensemble.survivors []) = 1
    ∧ ((7:ℚ)/10) ≠ 1 :=
  ⟨by decide, by decide, by decide, by norm_num⟩

/-- C1 amended: when the originally-loaded weights sum to 1, some sub-model
fails at inference time and at least one succeeds, predict does not fail, and
the fused score is the plain sum of weight·probability over the survivors —
with the weights NOT renormalized over the surviving subset. -/
theorem c1_ensemble_degraded_unnormalized (c : EnsembleVoiceClassifier) (f : List ℚ)
    (_hw : (c.weights.map Prod.snd).sum = 1)
    (_hfail : ∃ nm ∈ c.models, nm.2 (c.scaled f) = none)
    (hsur : c.survivors f ≠ []) :
    c.predict f = Except.ok (resultOfScore (c.rawScore f))
    ∧ c.rawScore f =
        ((c.survivors f).map (fun np => lookupD c.weights np.1 * np.2)).sum := by
  refine ⟨?_, rfl⟩
  unfold EnsembleVoiceClassifier.predict
  rw [if_neg hsur]

unseal Rat.add Rat.mul Rat.inv Rat.sub in
theorem c1_ensemble_degraded_unnormalized_witness :
    c1Ensemble.predict [] = Except.ok (resultOfScore (c1Ensemble.rawScore []))
    ∧ c1Ensemble.rawScore [] =
        ((c1Ensemble.survivors []).map
          (fun np => lookupD c1Ensemble.weights np.1 * np.2)).sum :=
  c1_ensemble_degraded_unnormalized c1Ensemble [] (by decide)
    ⟨("gradient_boosting", subFail),
     List.mem_cons_of_mem _ (List.mem_cons_self _ _), rfl⟩
    (by decide)

/-- C10: a surviving sub-model whose name has no entry in the weight mapping
contributes weight 0 to the fused score: the score is the sum over survivors
of weights.get(name, 0)·probability, an entry-less survivor leaves the score
unchanged, and no error or renormalization occurs (predict still succeeds
whenever some sub-model survived). -/
theorem c10_missing_weight_ignored :
    (∀ (c : EnsembleVoiceClassifier) (f : List ℚ),
      c.rawScore f =
        ((c.survivors f).map (fun np => lookupD c.weights np.1 * np.2)).sum)
    ∧ (∀ (W preds : List (String × ℚ)) (name : String) (p : ℚ),
        name ∉ W.map Prod.fst →
        ((((name, p) :: preds)).map (fun np => lookupD W np.1 * np.2)).sum
          = (preds.map (fun np => lookupD W np.1 * np.2)).sum)
    ∧ (∀ (c : EnsembleVoiceClassifier) (f : List ℚ), c.survivors f ≠ [] →
        c.predict f = Except.ok (resultOfScore (c.rawScore f))) := by
  refine ⟨fun c f => rfl, ?_, ?_⟩
  · intro W preds name p hname
    simp only [List.map_cons, List.sum_cons]
    have hz : lookupD W name = 0 := by
      induction W with
      | nil => rfl
      | cons e rest ih =>
        have hne : name ≠ e.1 := by
          intro hEq
          exact hname (by rw [hEq]; exact List.mem_cons_self _ _)
        have hnm : name ∉ rest.map Prod.fst := by
          intro hmem
          exact hname (List.mem_cons_of_mem _ hmem)
        show (if name = e.1 then e.2 else lookupD rest name) = 0
        rw [if_neg hne]
        exact ih hnm
    rw [hz, zero_mul, zero_add]
  · intro c f hsur
    unfold EnsembleVoiceClassifier.predict
    rw [if_neg hsur]

unseal Rat.add Rat.mul Rat.inv Rat.sub in
theorem c10_missing_weight_ignored_witness :
    (("extra" : String) ∉ c10Ensemble.weights.map Prod.fst ∧
     ((((("extra" : String), (1:ℚ)) :: [(("random_forest" : String), (1:ℚ)/2)])).map
        (fun np => lookupD c10Ensemble.weights np.1 * np.2)).sum
       = (([(("random_forest" : String), (1:ℚ)/2)]).map
          (fun np => lookupD c10Ensemble.weights np.1 * np.2)).sum)
    ∧ c10Ensemble.predict [] = Except.ok (resultOfScore (c10Ensemble.rawScore [])) := by
  refine ⟨⟨by decide, ?_⟩, ?_⟩
  · exact c10_missing_weight_ignored.2.1 c10Ensemble.weights
      [(("random_forest" : String), (1:ℚ)/2)] ("extra") 1 (by decide)
  · exact c10_missing_weight_ignored.2.2 c10Ensemble [] (by decide)

/-- C4 counterexample: a directory holding only random_forest.pkl and
scaler.pkl (gradient_boosting and svm missing) makes get_classifier return
the Ensemble classifier, although the claim requires every sub-model to be
present for that. -/
theorem c4_counterexample :
    (get_classifier (some c4Dir)).is_mock = false
    ∧ ¬ c4ClaimCondition c4Dir := by
  refine ⟨rfl, ?_⟩
  intro h
  rcases h.2.1 with ⟨m, hm⟩
  cases hm

/-- C4 amended: get_classifier returns the Ensemble classifier exactly when a
model directory is given, random_forest.pkl and scaler.pkl exist on disk, and
the constructor loads without error (the other sub-models need not exist);
otherwise — in particular whenever the scaler artifact is absent — it returns
the Heuristic (mock) classifier, and the selection is observable through the
is_mock flag. -/
theorem c4_factory_selection_amended :
    (∀ d : ModelDir, (get_classifier (some d)).is_mock = false ↔
        (d.random_forest.onDisk = true ∧ d.scaler.onDisk = true ∧
         exceptIsOk (loadModels d) = true))
    ∧ (get_classifier none).is_mock = true
    ∧ (∀ d : ModelDir, d.scaler = FileState.absent →
        (get_classifier (some d)).is_mock = true) := by
  have hshape : ∀ d : ModelDir, get_classifier (some d) =
      (if d.random_forest.onDisk && d.scaler.onDisk then
        match loadModels d with
        | Except.ok e => Classifier.ensemble e
        | Except.error _ => Classifier.mock
      else Classifier.mock) := fun d => rfl
  refine ⟨?_, rfl, ?_⟩
  · intro d
    rw [hshape d]
    by_cases h1 : (d.random_forest.onDisk && d.scaler.onDisk) = true
    · rw [if_pos h1]
      rcases (Bool.and_eq_true _ _).mp h1 with ⟨ha, hb⟩
      cases h2 : loadModels d with
      | ok e =>
        simp only [Classifier.is_mock, exceptIsOk]
        exact ⟨fun _ => ⟨ha, hb, trivial⟩, fun _ => trivial⟩
      | error e =>
        simp only [Classifier.is_mock, exceptIsOk]
        constructor
        · intro hc; exact absurd hc (by simp)
        · intro hc; cases hc.2.2
    · rw [if_neg h1]
      simp only [Classifier.is_mock]
      constructor
      · intro hc; exact absurd hc (by simp)
      · intro hc
        exact absurd (by rw [hc.1, hc.2.1]; rfl : (d.random_forest.onDisk &&
          d.scaler.onDisk) = true) h1
  · intro d hd
    rw [hshape d]
    have hc : (d.random_forest.onDisk && d.scaler.onDisk) = false := by
      rw [hd]
      show (d.random_forest.onDisk && false) = false
      rw [Bool.and_false]
    rw [if_neg (by rw [hc]; simp)]
    rfl

theorem c4_factory_selection_amended_witness :
    c4DirNoScaler.scaler = FileState.absent
    ∧ (get_classifier (some c4DirNoScaler)).is_mock = true :=
  ⟨rfl, c4_factory_selection_amended.2.2 c4DirNoScaler rfl⟩

theorem preprocess_shape (ap : AudioProcessor) (y : List ℚ) :
    ap.preprocess y =
      (if (y.length : ℚ)/(ap.target_sr : ℚ) < ap.min_duration then
        Except.error (PreprocessError.durationTooShort
          ((y.length : ℚ)/(ap.target_sr : ℚ)) ap.min_duration)
      else if ap.max_duration < (y.length : ℚ)/(ap.target_sr : ℚ) then
        Except.error (PreprocessError.durationTooLong
          ((y.length : ℚ)/(ap.target_sr : ℚ)) ap.max_duration)
      else Except.ok (libTrim (normalizeAmp y), ap.target_sr,
        (y.length : ℚ)/(ap.target_sr : ℚ))) := rfl

/-- C5: preprocess fails exactly when the duration — measured as
len(decoded)/target_sr on the full decoded signal, before normalization and
trimming — is below min_duration or above max_duration; every failure is a
DurationError carrying that full-decode duration; the deployed processor uses
the defaults 22050 Hz, 1 s, 60 s, and on a 0.5 s (11025-sample) or 90 s
(1984500-sample) input it fails without reaching normalization or trimming. -/
theorem c5_duration_gate :
    audio_processor.target_sr = 22050
    ∧ audio_processor.min_duration = 1
    ∧ audio_processor.max_duration = 60
    ∧ (∀ (ap : AudioProcessor) (y : List ℚ),
        ((∃ e, ap.preprocess y = Except.error e) ↔
          ((y.length : ℚ)/(ap.target_sr : ℚ) < ap.min_duration ∨
           ap.max_duration < (y.length : ℚ)/(ap.target_sr : ℚ)))
        ∧ (∀ e, ap.preprocess y = Except.error e →
            e = PreprocessError.durationTooShort
              ((y.length : ℚ)/(ap.target_sr : ℚ)) ap.min_duration ∨
            e = PreprocessError.durationTooLong
              ((y.length : ℚ)/(ap.target_sr : ℚ)) ap.max_duration))
    ∧ audio_processor.preprocess (List.replicate 11025 0) =
        Except.error (PreprocessError.durationTooShort (1/2) 1)
    ∧ audio_processor.preprocess (List.replicate 1984500 0) =
        Except.error (PreprocessError.durationTooLong 90 60) := by
  have hmain : ∀ (ap : AudioProcessor) (y : List ℚ),
      ((∃ e, ap.preprocess y = Except.error e) ↔
        ((y.length : ℚ)/(ap.target_sr : ℚ) < ap.min_duration ∨
         ap.max_duration < (y.length : ℚ)/(ap.target_sr : ℚ)))
      ∧ (∀ e, ap.preprocess y = Except.error e →
          e = PreprocessError.durationTooShort
            ((y.length : ℚ)/(ap.target_sr : ℚ)) ap.min_duration ∨
          e = PreprocessError.durationTooLong
            ((y.length : ℚ)/(ap.target_sr : ℚ)) ap.max_duration) := by
    intro ap y
    rw [preprocess_shape]
    by_cases h1 : (y.length : ℚ)/(ap.target_sr : ℚ) < ap.min_duration
    · rw [if_pos h1]
      refine ⟨⟨fun _ => Or.inl h1, fun _ => ⟨_, rfl⟩⟩, fun e he => ?_⟩
      injection he with h'
      exact Or.inl h'.symm
    · rw [if_neg h1]
      by_cases h2 : ap.max_duration < (y.length : ℚ)/(ap.target_sr : ℚ)
      · rw [if_pos h2]
        refine ⟨⟨fun _ => Or.inr h2, fun _ => ⟨_, rfl⟩⟩, fun e he => ?_⟩
        injection he with h'
        exact Or.inr h'.symm
      · rw [if_neg h2]
        refine ⟨⟨?_, ?_⟩, fun e he => by cases he⟩
        · rintro ⟨e, he⟩; cases he
        · rintro (h | h)
          · exact absurd h h1
          · exact absurd h h2
  have hd1 : ((List.replicate 11025 (0:ℚ)).length : ℚ)/
      ((audio_processor.target_sr : ℕ) : ℚ) = 1/2 := by
    rw [List.length_replicate]
    show ((11025:ℕ):ℚ)/((22050:ℕ):ℚ) = 1/2
    norm_num
  have hd2 : ((List.replicate 1984500 (0:ℚ)).length : ℚ)/
      ((audio_processor.target_sr : ℕ) : ℚ) = 90 := by
    rw [List.length_replicate]
    show ((1984500:ℕ):ℚ)/((22050:ℕ):ℚ) = 90
    norm_num
  have hmn : audio_processor.min_duration = 1 := rfl
  have hmx : audio_processor.max_duration = 60 := rfl
  refine ⟨rfl, rfl, rfl, hmain, ?_, ?_⟩
  · rw [preprocess_shape, hd1, hmn, if_pos (by norm_num : (1:ℚ)/2 < 1)]
  · rw [preprocess_shape, hd2, hmn, hmx,
      if_neg (by norm_num : ¬ ((90:ℚ) < 1)), if_pos (by norm_num : (60:ℚ) < 90)]

theorem framePowers_replicate_zero (n : ℕ) :
    framePowers (List.replicate n (0:ℚ)) = List.replicate (n/512 + 1) 0 := by
  unfold framePowers
  rw [List.length_replicate]
  have hpad : List.replicate 1024 (0:ℚ) ++ List.replicate n 0 ++ List.replicate 1024 0
      = List.replicate (1024 + n + 1024) (0:ℚ) := by
    rw [List.replicate_add, List.replicate_add]
  rw [hpad]
  have hmap : ∀ t ∈ List.range (n/512 + 1),
      ((((List.replicate (1024 + n + 1024) (0:ℚ)).drop (512*t)).take 2048).map
        (fun x => x*x)).sum / 2048 = (fun _ : ℕ => (0:ℚ)) t := by
    intro t _
    rw [List.drop_replicate, List.take_replicate, List.map_replicate]
    simp
  rw [List.map_congr_left hmap, List.map_const', List.length_range]

theorem listMaxQ_replicate_zero (m : ℕ) : listMaxQ (List.replicate m (0:ℚ)) = 0 := by
  induction m with
  | zero => rfl
  | succ k ih =>
    rw [List.replicate_succ]
    show max 0 (listMaxQ (List.replicate k 0)) = 0
    rw [ih, max_self]

theorem nonSilent_replicate_zero (n : ℕ) :
    nonSilent (List.replicate n (0:ℚ)) = List.replicate (n/512 + 1) true := by
  simp only [nonSilent]
  rw [framePowers_replicate_zero, listMaxQ_replicate_zero, List.map_replicate]
  have hmax : max aminP (0:ℚ) = aminP := max_eq_left (by norm_num [aminP])
  rw [hmax, decide_eq_true (by norm_num [aminP] : aminP / 1000 < aminP)]

theorem trueRunsAux_replicate_true (m : ℕ) : ∀ (i s : ℕ),
    trueRunsAux (List.replicate m true) i (some s) = [(s, i + m)] := by
  induction m with
  | zero => intro i s; rfl
  | succ k ih =>
    intro i s
    rw [List.replicate_succ]
    have hstep : trueRunsAux (true :: List.replicate k true) i (some s)
        = trueRunsAux (List.replicate k true) (i+1) (some s) := rfl
    rw [hstep, ih (i+1) s]
    have harith : i + 1 + k = i + (k + 1) := by omega
    rw [harith]

theorem trueRuns_replicate_true (m : ℕ) (h : 0 < m) :
    trueRuns (List.replicate m true) = [(0, m)] := by
  obtain ⟨k, rfl⟩ : ∃ k, m = k + 1 := ⟨m - 1, by omega⟩
  unfold trueRuns
  rw [List.replicate_succ]
  have hstep : trueRunsAux (true :: List.replicate k true) 0 none
      = trueRunsAux (List.replicate k true) 1 (some 0) := rfl
  rw [hstep, trueRunsAux_replicate_true k 1 0]
  have harith : 1 + k = k + 1 := by omega
  rw [harith]

theorem libSplit_replicate_zero (n : ℕ) (h : 0 < n) :
    libSplit (List.replicate n (0:ℚ)) = [(0, n)] := by
  unfold libSplit
  rw [nonSilent_replicate_zero, trueRuns_replicate_true _ (by omega),
    List.map_cons, List.map_nil, List.length_replicate]
  have h1 : min n (512*0) = 0 := by simp
  have h2 : min n (512*(n/512+1)) = n := by omega
  rw [h1, h2]

theorem temporalSilencePause_replicate_zero (n sr : ℕ) (h : 0 < n) :
    temporalSilencePause (List.replicate n (0:ℚ)) sr = (0, 0) := by
  have hne : ((n:ℚ)) ≠ 0 := Nat.cast_ne_zero.mpr (Nat.pos_iff_ne_zero.mp h)
  simp [temporalSilencePause, libSplit_replicate_zero n h, div_self hne]

theorem foldr_max_mem (l : List ℚ) : l.foldr max 0 ∈ l ∨ l.foldr max 0 = 0 := by
  induction l with
  | nil => exact Or.inr rfl
  | cons x xs ih =>
    show max x (xs.foldr max 0) ∈ x :: xs ∨ max x (xs.foldr max 0) = 0
    rcases le_total x (xs.foldr max 0) with h | h
    · rw [max_eq_right h]
      rcases ih with hm | hz
      · exact Or.inl (List.mem_cons_of_mem _ hm)
      · exact Or.inr hz
    · rw [max_eq_left h]
      exact Or.inl (List.mem_cons_self _ _)

/-- Because the silence threshold is relative to the loudest frame, some frame
is always non-silent (even in an all-zero signal). -/
theorem nonSilent_has_true (y : List ℚ) : true ∈ nonSilent y := by
  simp only [nonSilent]
  have hlen : (framePowers y).length = y.length/512 + 1 := by
    simp only [framePowers]
    rw [List.length_map, List.length_range]
  have hne : framePowers y ≠ [] := by
    intro hnil
    rw [hnil] at hlen
    simp at hlen
  have key : ∃ p ∈ framePowers y,
      max aminP (listMaxQ (framePowers y)) / 1000 < max aminP p := by
    rcases foldr_max_mem (framePowers y) with hm | hz
    · refine ⟨listMaxQ (framePowers y), hm, ?_⟩
      have hpos : (0:ℚ) < max aminP (listMaxQ (framePowers y)) :=
        lt_of_lt_of_le (by norm_num [aminP]) (le_max_left _ _)
      linarith
    · rcases List.exists_mem_of_ne_nil (framePowers y) hne with ⟨p, hp⟩
      refine ⟨p, hp, ?_⟩
      have hmz : listMaxQ (framePowers y) = 0 := hz
      rw [hmz, max_eq_left (by norm_num [aminP] : (0:ℚ) ≤ aminP)]
      have h2 : aminP ≤ max aminP p := le_max_left _ _
      have h3 : (0:ℚ) < aminP := by norm_num [aminP]
      linarith
  rcases key with ⟨p, hp, hcond⟩
  exact List.mem_map.mpr ⟨p, hp, decide_eq_true hcond⟩

theorem trueRunsAux_some_ne_nil (bs : List Bool) :
    ∀ i s, trueRunsAux bs i (some s) ≠ [] := by
  induction bs with
  | nil =>
    intro i s
    show [(s, i)] ≠ []
    simp
  | cons b rest ih =>
    intro i s
    cases b with
    | false =>
      show (s, i) :: trueRunsAux rest (i+1) none ≠ []
      simp
    | true =>
      show trueRunsAux rest (i+1) (some s) ≠ []
      exact ih (i+1) s

theorem trueRunsAux_none_ne_nil (bs : List Bool) :
    ∀ i, true ∈ bs → trueRunsAux bs i none ≠ [] := by
  induction bs with
  | nil => intro i h; cases h
  | cons b rest ih =>
    intro i h
    cases b with
    | false =>
      have hrest : true ∈ rest := by
        rcases List.mem_cons.mp h with h1 | h2
        · exact absurd h1 (by decide)
        · exact h2
      show trueRunsAux rest (i+1) none ≠ []
      exact ih (i+1) hrest
    | true =>
      show trueRunsAux rest (i+1) (some i) ≠ []
      exact trueRunsAux_some_ne_nil rest (i+1) i

theorem libSplit_ne_nil (y : List ℚ) : libSplit y ≠ [] := by
  unfold libSplit
  intro h
  exact trueRunsAux_none_ne_nil (nonSilent y) 0 (nonSilent_has_true y)
    (List.map_eq_nil_iff.mp h)

/-- C8 counterexample: an all-zero (all-silent) buffer of 512 samples yields
silence_ratio 0.0, not the claimed 1.0 — librosa's threshold is relative to
the buffer's own loudest frame, so the whole buffer counts as speech. -/
theorem c8_counterexample :
    temporalSilencePause (List.replicate 512 0) 22050 = (0, 0) ∧ ((0:ℚ) ≠ 1) :=
  ⟨temporalSilencePause_replicate_zero 512 22050 (by norm_num), by norm_num⟩

/-- C8 amended: the temporal extractor never raises, but the no-intervals
branch returning (1.0, 0.0) is unreachable — librosa.effects.split always
returns at least one interval because its dB threshold is relative to the
loudest frame; consequently an all-silent (all-zero) buffer yields
silence_ratio = 0.0 and average_pause_duration = 0.0.  When intervals exist
the stated formulas hold, and the average pause defaults to 0.0 whenever
fewer than 2 intervals exist. -/
theorem c8_temporal_silence_amended :
    (∀ (n sr : ℕ), 0 < n →
      temporalSilencePause (List.replicate n 0) sr = (0, 0))
    ∧ (∀ y : List ℚ, libSplit y ≠ [])
    ∧ (∀ (y : List ℚ) (sr : ℕ), (libSplit y).length ≤ 1 →
        (temporalSilencePause y sr).2 = 0) := by
  refine ⟨fun n sr h => temporalSilencePause_replicate_zero n sr h, libSplit_ne_nil, ?_⟩
  intro y sr h
  simp only [temporalSilencePause]
  by_cases h0 : 0 < (libSplit y).length
  · rw [if_pos h0]
    show (if 1 < (libSplit y).length then _ else 0) = 0
    rw [if_neg (by omega : ¬ 1 < (libSplit y).length)]
  · rw [if_neg h0]

theorem c8_temporal_silence_amended_witness :
    (0:ℕ) < 300 ∧ temporalSilencePause (List.replicate 300 0) 22050 = (0, 0) :=
  ⟨by norm_num, c8_temporal_silence_amended.1 300 22050 (by norm_num)⟩

theorem foldr_max_replicate (m : ℕ) (x c : ℚ) (h : 0 < m) :
    (List.replicate m x).foldr max c = max x c := by
  induction m with
  | zero => omega
  | succ k ih =>
    rw [List.replicate_succ]
    show max x ((List.replicate k x).foldr max c) = max x c
    cases Nat.eq_zero_or_pos k with
    | inl hk => rw [hk]; rfl
    | inr hk => rw [ih hk, ← max_assoc, max_self]

theorem normalizeAmp_yEx : normalizeAmp yEx = yEx := by
  simp only [normalizeAmp]
  have habs : yEx.map (fun x => |x|) = yEx := by
    simp only [yEx, List.map_append, List.map_replicate]
    norm_num
  rw [habs]
  have hpeak : listMaxQ yEx = 1 := by
    simp only [yEx, listMaxQ, List.foldr_append]
    rw [foldr_max_replicate 1024 (1:ℚ) 0 (by norm_num),
      foldr_max_replicate 1024 (0:ℚ) _ (by norm_num)]
    norm_num
  rw [hpeak]
  rw [if_neg (by norm_num)]
  have : yEx.map (fun x => x / 1) = yEx.map (fun x => x) := by
    apply List.map_congr_left
    intro a _
    rw [div_one]
  rw [this, List.map_id']

theorem sumSq01 (a b c : ℕ) :
    (((List.replicate a (0:ℚ) ++ List.replicate b 1 ++ List.replicate c 0).map
      (fun x => x*x)).sum) = (b : ℚ) := by
  simp only [List.map_append, List.map_replicate, List.sum_append, List.sum_replicate,
    nsmul_eq_mul]
  ring


theorem dropP (n m : ℕ) (h : n + m = 2048) :
    (List.replicate 2048 (0:ℚ) ++ List.replicate 1024 1 ++ List.replicate 1024 0).drop n
    = List.replicate m (0:ℚ) ++ List.replicate 1024 1 ++ List.replicate 1024 0 := by
  rw [List.drop_append_eq_append_drop, List.drop_append_eq_append_drop,
      List.drop_replicate, List.drop_replicate, List.drop_replicate]
  simp only [List.length_append, List.length_replicate]
  have e1 : 2048 - n = m := by omega
  have e2 : 1024 - (n - 2048) = 1024 := by omega
  have e3 : 1024 - (n - (2048 + 1024)) = 1024 := by omega
  rw [e1, e2, e3]

theorem takeP (m : ℕ) (hm : m ≤ 2048) :
    (List.replicate m (0:ℚ) ++ List.replicate 1024 1 ++ List.replicate 1024 0).take 2048
    = List.replicate m (0:ℚ) ++ List.replicate (min (2048 - m) 1024) 1
      ++ List.replicate (2048 - m - 1024) 0 := by
  rw [List.take_append_eq_append_take, List.take_append_eq_append_take,
      List.take_replicate, List.take_replicate, List.take_replicate]
  simp only [List.length_append, List.length_replicate]
  have e1 : min 2048 m = m := by omega
  have e3 : min (2048 - (m + 1024)) 1024 = 2048 - m - 1024 := by omega
  rw [e1, e3]

theorem framePowers_yEx : framePowers yEx = [0, 1/4, 1/2, 1/2, 1/2] := by
  simp only [framePowers]
  have hlen : yEx.length = 2048 := by simp [yEx]
  rw [hlen]
  have hpadded : List.replicate 1024 (0:ℚ) ++ yEx ++ List.replicate 1024 0
      = List.replicate 2048 (0:ℚ) ++ List.replicate 1024 1 ++ List.replicate 1024 0 := by
    show List.replicate 1024 (0:ℚ) ++ (List.replicate 1024 0 ++ List.replicate 1024 1)
        ++ List.replicate 1024 0 = _
    rw [← List.append_assoc, ← List.replicate_add]
  rw [hpadded]
  have hrange : List.range (2048/512 + 1) = [0, 1, 2, 3, 4] := by decide
  rw [hrange]
  simp only [List.map_cons, List.map_nil]
  rw [dropP (512*0) 2048 (by norm_num), dropP (512*1) 1536 (by norm_num),
      dropP (512*2) 1024 (by norm_num), dropP (512*3) 512 (by norm_num),
      dropP (512*4) 0 (by norm_num)]
  rw [takeP 2048 (by norm_num), takeP 1536 (by norm_num), takeP 1024 (by norm_num),
      takeP 512 (by norm_num), takeP 0 (by norm_num)]
  rw [sumSq01, sumSq01, sumSq01, sumSq01, sumSq01]
  norm_num [Nat.min_def]

theorem nonSilent_yEx : nonSilent yEx = [false, true, true, true, true] := by
  simp only [nonSilent]
  rw [framePowers_yEx]
  have hmax : listMaxQ [0, 1/4, 1/2, 1/2, (1/2:ℚ)] = 1/2 := by
    show max (0:ℚ) (max (1/4) (max (1/2) (max (1/2) (max (1/2) 0)))) = 1/2
    norm_num [max_def]
  rw [hmax]
  have hA : max aminP ((1:ℚ)/2) = 1/2 := max_eq_right (by norm_num [aminP])
  rw [hA]
  simp only [List.map_cons, List.map_nil]
  rw [decide_eq_false (by norm_num [aminP, max_def] :
        ¬ ((1:ℚ)/2/1000 < max aminP 0)),
      decide_eq_true (by norm_num [aminP, max_def] :
        (1:ℚ)/2/1000 < max aminP (1/4)),
      decide_eq_true (by norm_num [aminP, max_def] :
        (1:ℚ)/2/1000 < max aminP (1/2))]

theorem libTrim_single_run (y : List ℚ) (r : ℕ × ℕ)
    (h : trueRuns (nonSilent y) = [r]) :
    libTrim y = (y.drop (512 * r.1)).take (min y.length (512 * r.2) - 512 * r.1) := by
  unfold libTrim
  rw [h]
  rfl

theorem libTrim_yEx : libTrim yEx = yExTrimmed := by
  have hruns : trueRuns (nonSilent yEx) = [(1, 5)] := by
    rw [nonSilent_yEx]
    decide
  rw [libTrim_single_run yEx (1, 5) hruns]
  have hlen : yEx.length = 2048 := by simp [yEx]
  rw [hlen]
  have h2 : min 2048 (512*5) - 512*1 = 1536 := by norm_num
  have h1 : (512:ℕ)*1 = 512 := by norm_num
  rw [h2, h1]
  show ((List.replicate 1024 (0:ℚ) ++ List.replicate 1024 1).drop 512).take 1536
      = yExTrimmed
  rw [List.drop_append_eq_append_drop, List.drop_replicate, List.drop_replicate,
      List.length_replicate]
  have e1 : (1024:ℕ) - 512 = 512 := by norm_num
  have e2 : (512:ℕ) - 1024 = 0 := by norm_num
  rw [e1, e2]
  have e3 : (1024:ℕ) - 0 = 1024 := by norm_num
  rw [e3]
  rw [List.take_append_eq_append_take, List.take_replicate, List.take_replicate,
      List.length_replicate]
  have e4 : min 1536 512 = 512 := by norm_num
  have e5 : min (1536 - 512) 1024 = 1024 := by norm_num
  rw [e4, e5]
  rfl

theorem preprocess_yEx : apEx.preprocess yEx = Except.ok (yExTrimmed, 1024, 2) := by
  rw [preprocess_shape]
  have hd : ((yEx.length:ℚ))/((apEx.target_sr : ℕ):ℚ) = 2 := by
    have h1 : yEx.length = 2048 := by simp [yEx]
    have h2 : apEx.target_sr = 1024 := rfl
    rw [h1, h2]
    norm_num
  rw [hd]
  have hmn : apEx.min_duration = 1 := rfl
  have hmx : apEx.max_duration = 60 := rfl
  rw [hmn, hmx, if_neg (by norm_num : ¬ (2:ℚ) < 1), if_neg (by norm_num : ¬ (60:ℚ) < 2)]
  rw [normalizeAmp_yEx, libTrim_yEx]
  rfl

/-- C6 counterexample: at 1024 Hz, one second of silence then one second of
full-scale signal is preprocessed successfully; trimming removes 512 samples
(the buffer becomes 1536 samples) but the returned duration_seconds stays at
the pre-trim value 2.0, which differs from len(samples)/sample_rate = 1.5. -/
theorem c6_counterexample :
    apEx.preprocess yEx = Except.ok (yExTrimmed, 1024, 2)
    ∧ yExTrimmed.length = 1536
    ∧ ¬ ((2:ℚ) = (1536:ℚ)/(1024:ℚ)) :=
  ⟨preprocess_yEx, by simp [yExTrimmed], by norm_num⟩

/-- C6 amended: trimming changes only the samples — the sample_rate is always
the processor's target rate — but the returned duration_seconds is computed
on the full decoded signal BEFORE trimming, so it equals
len(decoded)/sample_rate and can exceed len(samples)/sample_rate when
trimming removes samples. -/
theorem c6_trim_preserves_rate (ap : AudioProcessor) (y : List ℚ)
    (out : List ℚ × ℕ × ℚ) (h : ap.preprocess y = Except.ok out) :
    out.2.1 = ap.target_sr
    ∧ out.2.2 = (y.length : ℚ)/(ap.target_sr : ℚ)
    ∧ out.1 = libTrim (normalizeAmp y) := by
  rw [preprocess_shape] at h
  split_ifs at h
  injection h with h'
  subst h'
  exact ⟨rfl, rfl, rfl⟩

theorem c6_trim_preserves_rate_witness :
    ((yExTrimmed, (1024:ℕ), (2:ℚ)).2.1 = apEx.target_sr)
    ∧ ((yExTrimmed, (1024:ℕ), (2:ℚ)).2.2 = ((yEx.length : ℚ))/((apEx.target_sr : ℕ):ℚ))
    ∧ ((yExTrimmed, (1024:ℕ), (2:ℚ)).1 = libTrim (normalizeAmp yEx)) :=
  c6_trim_preserves_rate apEx yEx (yExTrimmed, 1024, 2) preprocess_yEx

/-- C3: under the default configuration (n_mfcc = 40, 12 chroma bins — i.e.
whenever the mfcc primitive returns 40 rows and the chroma primitive 12 rows),
extract_all_features returns exactly 127 values, each the float32 conversion
of the computed value, laid out as 80 MFCC (40 means then 40 stds), 10
spectral, 6 prosodic, 3 voice-quality, 4 temporal and 24 chroma features, in
that block order. -/
theorem c3_feature_vector_layout (L : LibrosaPrims) (y : List ℚ) (sr : ℕ)
    (hm : (L.mfccMat y sr 40).length = 40) (hc : (L.chromaMat y sr).length = 12) :
    (extract_all_features L y sr).length = 127
    ∧ extract_all_features L y sr =
        (extract_mfcc_features L y sr ++ extract_spectral_features L y sr ++
         extract_prosodic_features L y sr ++ extract_voice_quality_features L y sr ++
         extract_temporal_features L y sr ++ extract_chroma_features L y sr).map L.toF32
    ∧ (extract_mfcc_features L y sr).length = 80
    ∧ (extract_spectral_features L y sr).length = 10
    ∧ (extract_prosodic_features L y sr).length = 6
    ∧ (extract_voice_quality_features L y sr).length = 3
    ∧ (extract_temporal_features L y sr).length = 4
    ∧ (extract_chroma_features L y sr).length = 24 := by
  have hmf : (extract_mfcc_features L y sr).length = 80 := by
    simp only [extract_mfcc_features, List.length_append, List.length_map, hm]
  have hch : (extract_chroma_features L y sr).length = 24 := by
    simp only [extract_chroma_features, List.length_append, List.length_map, hc]
  refine ⟨?_, rfl, hmf, rfl, rfl, rfl, rfl, hch⟩
  simp only [extract_all_features, List.length_map, List.length_append, hmf, hch]
  rfl

theorem c3_feature_vector_layout_witness :
    (L0.mfccMat [] 1 40).length = 40
    ∧ (L0.chromaMat [] 1).length = 12
    ∧ (extract_all_features L0 [] 1).length = 127 :=
  ⟨by simp [L0], by simp [L0],
   (c3_feature_vector_layout L0 [] 1 (by simp [L0]) (by simp [L0])).1⟩
